import Mathlib

/-!
Verification development for the SmartSpend personal-finance dashboard.

The TypeScript source is shallowly embedded: pure computations become Lean
functions; the outcomes of external effects (the remote LLM call, `JSON.parse`)
are passed in as explicit data so that the deterministic glue around them can
be verified.  JavaScript numbers are modelled by exact rationals (`Rat`):
every property proved here (sign tests, absolute values) is preserved by
binary64 rounding, and the `Infinity` literal is not modelled.
-/

namespace SmartSpend

/-- Substring containment, modelling JavaScript `String.prototype.includes`
(case-sensitive). -/
def strContains (s pat : String) : Bool :=
  decide (pat.data <:+: s.data)

/-- A JavaScript error value as the gateway observes it: an optional numeric
`status` field and the result of `toString()`. -/
structure JsError where
  status : Option Int
  str : String
deriving DecidableEq

/-- From `src/unnamed/part_001`, `isRateLimitError`: a falsy error (`none`)
is not rate-limited; otherwise the error is rate-limited when `status` is 429
or its string form contains "429", "RESOURCE_EXHAUSTED" or "quota". -/
def isRateLimitError : Option JsError → Bool
  | none => false
  | some e =>
    e.status == some 429 ||
    strContains e.str "429" ||
    strContains e.str "RESOURCE_EXHAUSTED" ||
    strContains e.str "quota"

theorem strContains_iff (s pat : String) :
    strContains s pat = true ↔ pat.data <:+: s.data := by
  simp [strContains]

/-- C1: `isRateLimitError` returns true exactly when the error carries
status 429 or its string representation contains "429",
"RESOURCE_EXHAUSTED" or "quota"; a null error and an error with none of
these classify as not rate-limited. -/
theorem isRateLimitError_spec :
    isRateLimitError none = false ∧
    ∀ e : JsError,
      isRateLimitError (some e) = true ↔
        (e.status = some 429 ∨
         ("429".data <:+: e.str.data) ∨
         ("RESOURCE_EXHAUSTED".data <:+: e.str.data) ∨
         ("quota".data <:+: e.str.data)) := by
  refine ⟨rfl, fun e => ?_⟩
  simp [isRateLimitError, strContains_iff, Bool.or_eq_true, beq_iff_eq, or_assoc]

/-- From `src/unnamed/part_002` (`types.ts`), `enum TransactionType`. -/
inductive TransactionType where
  | INCOME
  | EXPENSE
deriving DecidableEq

/-- From `src/unnamed/part_002` (`types.ts`), `interface Transaction`.
`amount` is an exact rational standing for the JavaScript number. -/
structure Transaction where
  id : String
  date : String
  description : String
  amount : Rat
  type : TransactionType
  category : String
  isAnomaly : Option Bool := none
deriving DecidableEq

/-- One record of the JSON array the categorize call is asked to return
(`{ id, category, isAnomaly }`, all required). -/
structure CatRecord where
  id : String
  category : String
  isAnomaly : Bool
deriving DecidableEq

/-- JavaScript truthiness of `response.text` (a string or `undefined`):
falsy when absent or empty. -/
def textFalsy : Option String → Bool
  | none => true
  | some s => s == ""

/-- Outcome of the remote categorize call together with, when the call
returns text, the outcome of `JSON.parse` on it (`Sum.inr e` models the
parse throwing error `e`). -/
inductive CatCall where
  | ok (text : Option String) (parsed : List CatRecord ⊕ Option JsError)
  | raised (e : Option JsError)

/-- From `src/unnamed/part_001`, `categorizeTransactions`, try/catch body:
on response text falsy return `[]`; otherwise the parsed array; any caught
error (from the call or from `JSON.parse`) throws `RATE_LIMIT` when
rate-limited and otherwise yields `[]`. -/
def categorizeTransactions : CatCall → Except String (List CatRecord)
  | .raised e =>
    if isRateLimitError e then .error "RATE_LIMIT" else .ok []
  | .ok text parsed =>
    if textFalsy text then .ok []
    else
      match parsed with
      | .inl rs => .ok rs
      | .inr e => if isRateLimitError e then .error "RATE_LIMIT" else .ok []

/-- From `src/components/TransactionList.tsx`, `runAutoCategorization`,
success path: `prev.map`, matching each transaction against the returned
records by id. -/
def mergeCategorization (results : List CatRecord) (ts : List Transaction) :
    List Transaction :=
  ts.map fun t =>
    match results.find? (fun r => r.id == t.id) with
    | some m => { t with category := m.category, isAnomaly := some m.isAnomaly }
    | none => t

/-- From `src/components/TransactionList.tsx`, `handleCategoryChange`. -/
def handleCategoryChange (id newCategory : String) (ts : List Transaction) :
    List Transaction :=
  ts.map fun t => if t.id == id then { t with category := newCategory } else t

/-- JavaScript `String.prototype.split` with a one-character separator, on
the character list: every occurrence of the separator starts a new field,
and the empty string yields one empty field. -/
def splitChar (sep : Char) : List Char → List (List Char)
  | [] => [[]]
  | c :: rest =>
    if c = sep then [] :: splitChar sep rest
    else
      match splitChar sep rest with
      | h :: t => (c :: h) :: t
      | [] => [[c]]

/-- JavaScript `s.split(sep)` for a one-character separator. -/
def jsSplit (s : String) (sep : Char) : List String :=
  (splitChar sep s.data).map fun l => ⟨l⟩

/-- JavaScript `String.prototype.trim`: strip whitespace from both ends. -/
def jsTrim (s : String) : String :=
  ⟨((s.data.dropWhile Char.isWhitespace).reverse.dropWhile Char.isWhitespace).reverse⟩

/-- Numeric value of a run of decimal digits. -/
def digitsVal (ds : List Char) : Nat :=
  ds.foldl (fun a c => 10 * a + (c.toNat - '0'.toNat)) 0

/-- Exponent suffix of a JavaScript number literal (after `e`/`E`):
an optional sign and digits; ignored (0) when no digits follow. -/
def parseExp (cs : List Char) : Int :=
  let signAndRest : Int × List Char :=
    match cs with
    | '-' :: rest => (-1, rest)
    | '+' :: rest => (1, rest)
    | _ => (1, cs)
  let ds := signAndRest.2.takeWhile Char.isDigit
  if ds.isEmpty then 0 else signAndRest.1 * (digitsVal ds : Int)

/-- JavaScript `parseFloat`, modelled over exact rationals: leading
whitespace is skipped, then an optional sign, digits, an optional fraction
and an optional exponent are read and trailing garbage is ignored; `none`
models `NaN` (no digits readable).  The `Infinity` literal and binary64
rounding are not modelled; the sign and absolute value proved about below
are unaffected by rounding. -/
def parseFloat (s : String) : Option Rat :=
  let cs := s.data.dropWhile Char.isWhitespace
  let signAndRest : Int × List Char :=
    match cs with
    | '-' :: rest => (-1, rest)
    | '+' :: rest => (1, rest)
    | _ => (1, cs)
  let cs1 := signAndRest.2
  let intPart := cs1.takeWhile Char.isDigit
  let cs2 := cs1.dropWhile Char.isDigit
  let fracAndRest : List Char × List Char :=
    match cs2 with
    | '.' :: rest => (rest.takeWhile Char.isDigit, rest.dropWhile Char.isDigit)
    | _ => ([], cs2)
  let fracPart := fracAndRest.1
  if intPart.isEmpty && fracPart.isEmpty then none
  else
    let mantissa : Int := signAndRest.1 * (digitsVal (intPart ++ fracPart) : Int)
    let expo : Int :=
      (match fracAndRest.2 with
        | 'e' :: rest => parseExp rest
        | 'E' :: rest => parseExp rest
        | _ => 0) - (fracPart.length : Int)
    if 0 ≤ expo then some (Rat.divInt (mantissa * (10 : Int) ^ expo.toNat) 1)
    else some (Rat.divInt mantissa ((10 : Int) ^ (-expo).toNat))

/-- From `src/components/TransactionList.tsx`, `handleFileUpload`, body of
the per-line `forEach`: split on comma, require at least 3 fields and a
numeric third field, default blank date/description, store the absolute
amount and derive the type from the sign.  `nowStr` stands for
`Date.now().toString()` and `today` for today's ISO date. -/
def lineToTransaction (nowStr today : String) (idx : Nat) (line : String) :
    Option Transaction :=
  match jsSplit line ',' with
  | date :: desc :: amountStr :: _ =>
    match parseFloat amountStr with
    | some v =>
      some
        { id := nowStr ++ toString idx
          date := if jsTrim date == "" then today else jsTrim date
          description := if jsTrim desc == "" then "Unknown" else jsTrim desc
          amount := |v|
          type := if v < 0 then TransactionType.EXPENSE else TransactionType.INCOME
          category := "Uncategorized" }
    | none => none
  | _ => none

/-- From `src/components/TransactionList.tsx`, `handleFileUpload`: split the
file on newlines, drop the header line, and parse each remaining line at its
index (invalid lines contribute nothing).  The result is appended to the
previous store by the caller. -/
def importCsv (nowStr today text : String) : List Transaction :=
  (((jsSplit text '\n').drop 1).enum).filterMap fun p =>
    lineToTransaction nowStr today p.1 p.2

/-- From `src/unnamed/part_002` (`App.tsx`), `INITIAL_DATA`: the seed
transactions used when local storage is empty. -/
def INITIAL_DATA : List Transaction :=
  [ { id := "1", date := "2023-11-01", description := "Salary Deposit",
      amount := 4500, type := .INCOME, category := "Income" },
    { id := "2", date := "2023-11-03", description := "Whole Foods Market",
      amount := 124.50, type := .EXPENSE, category := "Food & Dining" },
    { id := "3", date := "2023-11-05", description := "Uber Trip",
      amount := 24.00, type := .EXPENSE, category := "Transportation" },
    { id := "4", date := "2023-11-05", description := "Netflix Subscription",
      amount := 15.99, type := .EXPENSE, category := "Entertainment" },
    { id := "5", date := "2023-11-07", description := "Electric Bill",
      amount := 145.20, type := .EXPENSE, category := "Utilities" },
    { id := "6", date := "2023-11-10", description := "Luxury Bag Store",
      amount := 2500.00, type := .EXPENSE, category := "Shopping",
      isAnomaly := some true },
    { id := "7", date := "2023-11-12", description := "Coffee Shop",
      amount := 6.50, type := .EXPENSE, category := "Food & Dining" },
    { id := "8", date := "2023-11-15", description := "Rent Payment",
      amount := 1800.00, type := .EXPENSE, category := "Housing" },
    { id := "9", date := "2023-11-16", description := "Unknown Charge 9928",
      amount := 49.99, type := .EXPENSE, category := "Uncategorized" } ]

/-- From `src/unnamed/part_001`, `getSpendingInsights`: per-transaction
summary line "date: description ($amount) - category". -/
def summaryLine (t : Transaction) : String :=
  t.date ++ ": " ++ t.description ++ " ($" ++ toString t.amount ++ ") - " ++ t.category

/-- From `src/unnamed/part_001`, `getSpendingInsights`:
`transactions.slice(0, 50).map(...).join('\n')`. -/
def insightSummary (ts : List Transaction) : String :=
  String.intercalate "\n" ((ts.take 50).map summaryLine)

/-- Outcome of the remote insight call. -/
inductive InsightCall where
  | ok (text : Option String)
  | raised (e : Option JsError)

/-- Default text when the insight response is empty
(`response.text || ...`). -/
def noInsightsText : String := "No insights available at this time."

/-- Fixed text returned on a non-rate-limit insight failure. -/
def insightsApology : String :=
  "Could not generate insights at this time. Please try again later."

/-- From `src/unnamed/part_001`, `getSpendingInsights`, try/catch body:
return the response text, the default when it is falsy; on a caught error,
throw `RATE_LIMIT` when rate-limited, otherwise return the apology. -/
def getSpendingInsights (_transactions : List Transaction) :
    InsightCall → Except String String
  | .ok text => .ok (if textFalsy text then noInsightsText else text.getD "")
  | .raised e =>
    if isRateLimitError e then .error "RATE_LIMIT" else .ok insightsApology

/-- From `src/unnamed/part_002` (`types.ts`), chat message role
`'user' | 'model'`. -/
inductive Role where
  | user
  | model
deriving DecidableEq

/-- From `src/unnamed/part_002` (`types.ts`), `interface ChatMessage`. -/
structure ChatMessage where
  id : String
  role : Role
  text : String
  timestamp : Int
deriving DecidableEq

/-- Text of one stream chunk: `chunk.text || ''`. -/
def chunkText (c : Option String) : String := c.getD ""

/-- Concatenation of a sequence of stream chunks. -/
def concatTexts : List (Option String) → String
  | [] => ""
  | c :: cs => chunkText c ++ concatTexts cs

/-- From `src/unnamed/part_000` (`ChatBot.tsx`), `handleSend`, streaming
loop body: `setMessages(prev => prev.map(...))` writing the running full
text into the message with id `botMsgId`. -/
def updateBot (botMsgId fullText : String) (msgs : List ChatMessage) :
    List ChatMessage :=
  msgs.map fun m => if m.id == botMsgId then { m with text := fullText } else m

/-- From `src/unnamed/part_000` (`ChatBot.tsx`), `handleSend`, streaming
loop: for each chunk, extend the accumulated full text and update the bot
message; the result lists the message-list state after each chunk, in
order. -/
def runStream (botMsgId : String) (fullText : String)
    (msgs : List ChatMessage) : List (Option String) → List (List ChatMessage)
  | [] => []
  | c :: cs =>
    let fullText2 := fullText ++ chunkText c
    let msgs2 := updateBot botMsgId fullText2 msgs
    msgs2 :: runStream botMsgId fullText2 msgs2 cs

/-- Text of the message with the given id, as rendered. -/
def displayedText (botMsgId : String) (msgs : List ChatMessage) :
    Option String :=
  (msgs.find? fun m => m.id == botMsgId).map (·.text)

/-- Generic chat failure text. -/
def genericChatError : String := "Sorry, I encountered an error. Please try again."

/-- Rate-limit chat failure text. -/
def rateLimitChatError : String :=
  "⚠️ usage limits exceeded. Please wait a minute before trying again."

/-- From `src/unnamed/part_000` (`ChatBot.tsx`), `handleSend`, catch block:
the error text chosen by the shared classifier. -/
def chatErrorText (e : Option JsError) : String :=
  if isRateLimitError e then rateLimitChatError else genericChatError

/-- From `src/unnamed/part_000` (`ChatBot.tsx`), `handleSend`, catch block:
replace a trailing empty model message with the error message, otherwise
append it.  The source reads `prev[prev.length - 1]` without an emptiness
check; the empty case cannot arise in the component (the greeting and the
user message precede every failure), and is mapped to an append here. -/
def applyChatError (errMsg : ChatMessage) (prev : List ChatMessage) :
    List ChatMessage :=
  match prev.getLast? with
  | some lastMsg =>
    if lastMsg.role = Role.model ∧ lastMsg.text = "" then
      prev.dropLast ++ [errMsg]
    else prev ++ [errMsg]
  | none => prev ++ [errMsg]

/-- Every stored amount is non-negative. -/
def amountsNonneg (ts : List Transaction) : Prop := ∀ t ∈ ts, 0 ≤ t.amount

instance (ts : List Transaction) : Decidable (amountsNonneg ts) :=
  inferInstanceAs (Decidable (∀ t ∈ ts, 0 ≤ t.amount))

/-- C2: a rate-limited failure of the categorize call propagates as the
distinct `RATE_LIMIT` error; any other caught failure — a call error not
classified as rate-limited, or a response text that cannot be parsed —
yields the empty result list, and merging an empty result list updates no
transaction.  The shared classifier is applied to every caught error, so a
parse error whose status or string matches the rate-limit patterns also
propagates as `RATE_LIMIT`. -/
theorem categorize_failure_handling :
    (∀ e, isRateLimitError e = true →
      categorizeTransactions (.raised e) = .error "RATE_LIMIT")
  ∧ (∀ e, isRateLimitError e = false →
      categorizeTransactions (.raised e) = .ok [])
  ∧ (∀ text e, isRateLimitError e = false →
      categorizeTransactions (.ok text (.inr e)) = .ok [])
  ∧ (∀ text e, textFalsy text = false → isRateLimitError e = true →
      categorizeTransactions (.ok text (.inr e)) = .error "RATE_LIMIT")
  ∧ (∀ ts, mergeCategorization [] ts = ts) := by
  refine ⟨fun e h => ?_, fun e h => ?_, fun text e h => ?_,
    fun text e ht h => ?_, fun ts => ?_⟩
  · simp [categorizeTransactions, h]
  · simp [categorizeTransactions, h]
  · by_cases hf : textFalsy text <;> simp [categorizeTransactions, hf, h]
  · simp [categorizeTransactions, ht, h]
  · simp [mergeCategorization]

theorem categorize_failure_handling_witness :
    categorizeTransactions
        (.raised (some { status := some 429, str := "Error" }))
      = .error "RATE_LIMIT" :=
  categorize_failure_handling.1 _ (by decide)

/-- C6: the insight operation returns the raw response text when it is
non-empty, the default "no insights" text when the response text is empty
or absent, fails with `RATE_LIMIT` on a rate-limited error, and returns
the fixed apologetic text on every other failure. -/
theorem insights_result_spec (ts : List Transaction) :
    (∀ t : String, t ≠ "" →
      getSpendingInsights ts (.ok (some t)) = .ok t)
  ∧ getSpendingInsights ts (.ok (some "")) = .ok noInsightsText
  ∧ getSpendingInsights ts (.ok none) = .ok noInsightsText
  ∧ (∀ e, getSpendingInsights ts (.raised e) =
      if isRateLimitError e then .error "RATE_LIMIT" else .ok insightsApology) := by
  refine ⟨fun t h => ?_, rfl, rfl, fun e => rfl⟩
  simp [getSpendingInsights, textFalsy, h]

theorem insights_result_spec_witness :
    getSpendingInsights [] (.ok (some "Spending held steady."))
      = .ok "Spending held steady." :=
  (insights_result_spec []).1 _ (by decide)

/-- C9: the insight prompt is built from exactly the first
`min (length, 50)` transactions in their original order; 200 input
transactions contribute exactly 50. -/
theorem insight_truncation (ts : List Transaction) :
    insightSummary ts = String.intercalate "\n" ((ts.take 50).map summaryLine)
  ∧ (ts.take 50).length = min ts.length 50
  ∧ ts.take 50 ++ ts.drop 50 = ts
  ∧ (ts.length = 200 → (ts.take 50).length = 50) :=
  ⟨rfl, by simp [List.length_take, Nat.min_comm],
    List.take_append_drop 50 ts,
    fun h => by simp [List.length_take, h]⟩

theorem insight_truncation_witness :
    ((List.replicate 200
        ({ id := "1", date := "d", description := "x", amount := 0,
           type := .INCOME, category := "c" } : Transaction)).take 50).length
      = 50 :=
  (insight_truncation _).2.2.2 (List.length_replicate 200 _)

/-- C10: a manual category edit keeps the list length and order, rewrites
exactly the category field of the transactions carrying the edited id, and
leaves the list unchanged when no transaction has that id. -/
theorem handleCategoryChange_spec (id newCategory : String)
    (ts : List Transaction) :
    (handleCategoryChange id newCategory ts).length = ts.length
  ∧ (∀ (i : Nat) (t : Transaction), ts[i]? = some t →
      (handleCategoryChange id newCategory ts)[i]? =
        some (if t.id = id then { t with category := newCategory } else t))
  ∧ ((∀ t ∈ ts, t.id ≠ id) → handleCategoryChange id newCategory ts = ts) := by
  refine ⟨List.length_map .., fun i t h => ?_, fun h => ?_⟩
  · simp only [handleCategoryChange, List.getElem?_map, h, Option.map_some]
    by_cases hid : t.id = id <;> simp [hid]
  · conv_rhs => rw [← List.map_id ts]
    exact List.map_congr_left fun t ht => by simp [h t ht]

theorem handleCategoryChange_spec_witness :
    (handleCategoryChange "1" "Housing"
        [{ id := "1", date := "d", description := "x", amount := 5,
           type := .EXPENSE, category := "Uncategorized" }])[0]? =
      some { id := "1", date := "d", description := "x", amount := 5,
             type := .EXPENSE, category := "Housing" } := by
  have h := (handleCategoryChange_spec "1" "Housing"
    [{ id := "1", date := "d", description := "x", amount := 5,
       type := .EXPENSE, category := "Uncategorized" }]).2.1 0 _ rfl
  simpa using h

/-- C3: the categorize-merge step keeps the list length and order, never
touches id, date, description, amount or type, leaves a transaction whose
id no response record carries unchanged, and for a transaction matched by
a response record sets exactly its category and anomaly flag from that
record. -/
theorem mergeCategorization_frame (rs : List CatRecord)
    (ts : List Transaction) :
    (mergeCategorization rs ts).length = ts.length
  ∧ ∀ (i : Nat) (t : Transaction), ts[i]? = some t →
      ∃ u, (mergeCategorization rs ts)[i]? = some u
        ∧ u.id = t.id ∧ u.date = t.date ∧ u.description = t.description
        ∧ u.amount = t.amount ∧ u.type = t.type
        ∧ ((∀ r ∈ rs, r.id ≠ t.id) → u = t)
        ∧ (∀ m, rs.find? (fun r => r.id == t.id) = some m →
            u.category = m.category ∧ u.isAnomaly = some m.isAnomaly) := by
  refine ⟨List.length_map .., fun i t h => ?_⟩
  have hu : (mergeCategorization rs ts)[i]? = some
      (match rs.find? (fun r => r.id == t.id) with
        | some m =>
          { t with category := m.category, isAnomaly := some m.isAnomaly }
        | none => t) := by
    simp only [mergeCategorization, List.getElem?_map, h]; rfl
  rcases hfind : rs.find? (fun r => r.id == t.id) with _ | m
  · rw [hfind] at hu
    exact ⟨t, hu, rfl, rfl, rfl, rfl, rfl, fun _ => rfl,
      fun m hm => by rw [hfind] at hm; cases hm⟩
  · rw [hfind] at hu
    refine ⟨_, hu, rfl, rfl, rfl, rfl, rfl, fun hnone => ?_, fun m2 hm => ?_⟩
    · have hmem := List.mem_of_find?_eq_some hfind
      have hid := List.find?_some hfind
      exact absurd (beq_iff_eq.mp hid) (hnone m hmem)
    · rw [hfind] at hm; cases hm; exact ⟨rfl, rfl⟩

theorem mergeCategorization_frame_witness :
    ∃ u, (mergeCategorization [⟨"1", "Food & Dining", false⟩]
        [⟨"1", "2023-11-12", "Coffee Shop", Rat.divInt 13 2, .EXPENSE,
          "Uncategorized", none⟩])[0]? = some u
      ∧ u.id = "1" ∧ u.date = "2023-11-12" ∧ u.description = "Coffee Shop"
      ∧ u.amount = Rat.divInt 13 2 ∧ u.type = .EXPENSE
      ∧ ((∀ r ∈ ([⟨"1", "Food & Dining", false⟩] : List CatRecord),
            r.id ≠ "1") →
          u = ⟨"1", "2023-11-12", "Coffee Shop", Rat.divInt 13 2, .EXPENSE,
            "Uncategorized", none⟩)
      ∧ (∀ m, ([⟨"1", "Food & Dining", false⟩] : List CatRecord).find?
            (fun r => r.id == "1") = some m →
          u.category = m.category ∧ u.isAnomaly = some m.isAnomaly) :=
  (mergeCategorization_frame [⟨"1", "Food & Dining", false⟩]
    [⟨"1", "2023-11-12", "Coffee Shop", Rat.divInt 13 2, .EXPENSE,
      "Uncategorized", none⟩]).2 0
    ⟨"1", "2023-11-12", "Coffee Shop", Rat.divInt 13 2, .EXPENSE,
      "Uncategorized", none⟩ rfl

theorem lineToTransaction_amount_nonneg (nowStr today : String) (idx : Nat)
    (line : String) (t : Transaction)
    (h : lineToTransaction nowStr today idx line = some t) : 0 ≤ t.amount := by
  unfold lineToTransaction at h
  split at h
  · split at h
    · cases h
      exact abs_nonneg _
    · cases h
  · cases h

/-- C7: every store-writing operation keeps amounts non-negative: the seed
data satisfies it, CSV import appends only absolute values, and manual
category edits and categorize-merge never change an amount. -/
theorem store_amounts_nonneg :
    amountsNonneg INITIAL_DATA
  ∧ (∀ prev nowStr today text, amountsNonneg prev →
      amountsNonneg (prev ++ importCsv nowStr today text))
  ∧ (∀ id c ts, amountsNonneg ts →
      amountsNonneg (handleCategoryChange id c ts))
  ∧ (∀ rs ts, amountsNonneg ts →
      amountsNonneg (mergeCategorization rs ts)) := by
  refine ⟨?_, fun prev nowStr today text hp => ?_, fun id c ts hp => ?_,
    fun rs ts hp => ?_⟩
  · intro t ht
    fin_cases ht <;> norm_num [INITIAL_DATA]
  · intro t ht
    rcases List.mem_append.mp ht with h | h
    · exact hp t h
    · rcases List.mem_filterMap.mp h with ⟨p, _, hline⟩
      exact lineToTransaction_amount_nonneg _ _ _ _ _ hline
  · intro t ht
    rcases List.mem_map.mp ht with ⟨t0, ht0, rfl⟩
    have hamt : (if t0.id == id then { t0 with category := c }
        else t0).amount = t0.amount := by
      split <;> rfl
    rw [hamt]
    exact hp t0 ht0
  · intro t ht
    rcases List.mem_map.mp ht with ⟨t0, ht0, rfl⟩
    have hamt : (match rs.find? (fun (r : CatRecord) => r.id == t0.id) with
        | some m =>
          { t0 with category := m.category, isAnomaly := some m.isAnomaly }
        | none => t0).amount = t0.amount := by
      split <;> rfl
    rw [hamt]
    exact hp t0 ht0

theorem store_amounts_nonneg_witness :
    amountsNonneg ([] ++ importCsv "N" "2024-01-01"
      "Date,Description,Amount\n2024-01-02,Coffee,-3.5") :=
  store_amounts_nonneg.2.1 [] "N" "2024-01-01"
    "Date,Description,Amount\n2024-01-02,Coffee,-3.5" (by decide)

/-- C4: the importer drops the header line and maps each remaining line at
its index; a line with fewer than 3 comma-separated fields or a non-numeric
third field contributes nothing, and otherwise contributes exactly one
transaction whose amount is the absolute value of the parsed third field
and whose type is EXPENSE for a negative parse and INCOME otherwise. -/
theorem importCsv_spec (nowStr today text : String) :
    importCsv nowStr today text =
      (((jsSplit text '\n').drop 1).enum).filterMap
        (fun p => lineToTransaction nowStr today p.1 p.2)
  ∧ (∀ idx line, (jsSplit line ',').length < 3 →
      lineToTransaction nowStr today idx line = none)
  ∧ (∀ idx line d desc a rest, jsSplit line ',' = d :: desc :: a :: rest →
      (parseFloat a = none → lineToTransaction nowStr today idx line = none)
    ∧ (∀ v, parseFloat a = some v →
        ∃ t, lineToTransaction nowStr today idx line = some t
          ∧ t.amount = |v|
          ∧ t.type = (if v < 0 then TransactionType.EXPENSE
              else TransactionType.INCOME))) := by
  refine ⟨rfl, fun idx line h => ?_, fun idx line d desc a rest hsplit => ?_⟩
  · unfold lineToTransaction
    split
    · rename_i d desc a rest heq
      rw [heq] at h
      simp at h
      omega
    · rfl
  · constructor
    · intro hn
      simp only [lineToTransaction, hsplit, hn]
    · intro v hv
      simp only [lineToTransaction, hsplit, hv]
      exact ⟨_, rfl, rfl, rfl⟩

theorem importCsv_spec_witness :
    ∃ t, lineToTransaction "N" "2024-01-01" 0 "2024-01-02,Coffee,-3.5"
        = some t
      ∧ t.amount = |Rat.divInt (-7) 2|
      ∧ t.type = (if Rat.divInt (-7) 2 < 0 then TransactionType.EXPENSE
          else TransactionType.INCOME) :=
  ((importCsv_spec "N" "2024-01-01" "").2.2 0 "2024-01-02,Coffee,-3.5"
    "2024-01-02" "Coffee" "-3.5" [] (by decide)).2 (Rat.divInt (-7) 2)
    (by decide)

theorem str_append_assoc (a b c : String) : a ++ b ++ c = a ++ (b ++ c) := by
  apply String.ext
  simp

theorem find?_updateBot (botId s : String) (msgs : List ChatMessage) :
    (updateBot botId s msgs).find? (fun m => m.id == botId)
      = (msgs.find? (fun m => m.id == botId)).map
          (fun m => { m with text := s }) := by
  unfold updateBot
  rw [List.find?_map]
  have hpf : ((fun (m : ChatMessage) => m.id == botId) ∘ fun m =>
      if m.id == botId then { m with text := s } else m)
      = fun (m : ChatMessage) => m.id == botId := by
    funext m
    cases hb : (m.id == botId) with
    | false =>
      have h2 : ¬(m.id = botId) := by simpa using hb
      simp [hb, h2]
    | true =>
      have h2 : m.id = botId := by simpa using hb
      simp [hb, h2]
  rw [hpf]
  rcases hf : msgs.find? (fun m => m.id == botId) with _ | m
  · rw [hf]
    rfl
  · rw [hf]
    have hp0 := List.find?_some hf
    have hp : (m.id == botId) = true := hp0
    simp [hp]
    intro hne
    exact absurd (beq_iff_eq.mp hp) hne

theorem displayedText_updateBot (botId s acc : String)
    (msgs : List ChatMessage) (h : displayedText botId msgs = some acc) :
    displayedText botId (updateBot botId s msgs) = some s := by
  unfold displayedText at h ⊢
  rw [find?_updateBot]
  rcases hf : msgs.find? (fun m => m.id == botId) with _ | m
  · rw [hf] at h
    cases h
  · rw [hf]
    rfl

theorem runStream_spec (botId : String) :
    ∀ (chunks : List (Option String)) (acc : String)
      (msgs : List ChatMessage),
      displayedText botId msgs = some acc →
      (runStream botId acc msgs chunks).length = chunks.length
    ∧ (∀ k, k < chunks.length →
        displayedText botId ((runStream botId acc msgs chunks).getD k [])
          = some (acc ++ concatTexts (chunks.take (k + 1))))
    ∧ displayedText botId ((runStream botId acc msgs chunks).getLastD msgs)
        = some (acc ++ concatTexts chunks) := by
  intro chunks
  induction chunks with
  | nil =>
    intro acc msgs h
    refine ⟨rfl, fun k hk => by simp at hk, ?_⟩
    simpa [runStream, concatTexts, String.append_empty] using h
  | cons c cs ih =>
    intro acc msgs h
    have hupd : displayedText botId
        (updateBot botId (acc ++ chunkText c) msgs)
        = some (acc ++ chunkText c) :=
      displayedText_updateBot botId _ acc msgs h
    obtain ⟨ihlen, ihk, ihlast⟩ := ih (acc ++ chunkText c)
      (updateBot botId (acc ++ chunkText c) msgs) hupd
    refine ⟨by simp [runStream, ihlen], fun k hk => ?_, ?_⟩
    · cases k with
      | zero =>
        simpa only [runStream, List.getD_cons_zero, List.take_succ_cons,
          List.take_zero, concatTexts, String.append_empty] using hupd
      | succ k =>
        have hklt : k < cs.length := by
          simp only [List.length_cons] at hk
          omega
        have hs := ihk k hklt
        simpa only [runStream, List.getD_cons_succ, List.take_succ_cons,
          concatTexts, str_append_assoc] using hs
    · simpa only [runStream, List.getLastD_cons, concatTexts,
        str_append_assoc] using ihlast

/-- C5: for a successful chat stream, the displayed model message after the
k-th chunk is the concatenation of the first k chunk texts, and the final
displayed text is the concatenation of all chunks. -/
theorem chat_stream_spec (prev : List ChatMessage) (botMsgId : String)
    (ts0 : Int) (chunks : List (Option String))
    (hfresh : ∀ m ∈ prev, m.id ≠ botMsgId) :
    (runStream botMsgId ""
        (prev ++ [⟨botMsgId, Role.model, "", ts0⟩]) chunks).length
      = chunks.length
  ∧ (∀ k, k < chunks.length →
      displayedText botMsgId
        ((runStream botMsgId ""
          (prev ++ [⟨botMsgId, Role.model, "", ts0⟩]) chunks).getD k [])
        = some (concatTexts (chunks.take (k + 1))))
  ∧ displayedText botMsgId
      ((runStream botMsgId ""
        (prev ++ [⟨botMsgId, Role.model, "", ts0⟩]) chunks).getLastD
        (prev ++ [⟨botMsgId, Role.model, "", ts0⟩]))
      = some (concatTexts chunks) := by
  have h0 : displayedText botMsgId
      (prev ++ [⟨botMsgId, Role.model, "", ts0⟩]) = some "" := by
    unfold displayedText
    rw [List.find?_append]
    have hnone : prev.find? (fun m => m.id == botMsgId) = none :=
      List.find?_eq_none.mpr fun m hm => by simp [hfresh m hm]
    simp [hnone]
  obtain ⟨hlen, hk, hlast⟩ := runStream_spec botMsgId chunks "" _ h0
  refine ⟨hlen, fun k hk2 => ?_, ?_⟩
  · simpa [String.empty_append] using hk k hk2
  · simpa [String.empty_append] using hlast

theorem chat_stream_spec_witness :
    displayedText "2"
      ((runStream "2" ""
        ([⟨"0", Role.model, "Hello there.", 0⟩, ⟨"1", Role.user, "Hi", 1⟩]
          ++ [⟨"2", Role.model, "", 2⟩])
        [some "Hel", some "lo, ", some "how can I help?"]).getD 1 [])
      = some "Hello, " := by
  have h := (chat_stream_spec
    [⟨"0", Role.model, "Hello there.", 0⟩, ⟨"1", Role.user, "Hi", 1⟩]
    "2" 2 [some "Hel", some "lo, ", some "how can I help?"]
    (by decide)).2.1 1 (by decide)
  have hc : concatTexts
      ([some "Hel", some "lo, ", some "how can I help?"].take 2)
      = "Hello, " := by decide
  rw [hc] at h
  exact h

/-- C8: a chat stream failure is classified by the shared rate-limit
classifier; the error message replaces the last message when that is an
empty model message (the partially-streamed placeholder) and is appended
after the existing messages otherwise. -/
theorem chat_failure_spec (e : Option JsError) (prev : List ChatMessage)
    (newId : String) (ts0 : Int) :
    (chatErrorText e
      = if isRateLimitError e then rateLimitChatError else genericChatError)
  ∧ ∀ lastMsg, prev.getLast? = some lastMsg →
      ((lastMsg.role = Role.model ∧ lastMsg.text = "") →
        applyChatError ⟨newId, Role.model, chatErrorText e, ts0⟩ prev
          = prev.dropLast ++ [⟨newId, Role.model, chatErrorText e, ts0⟩])
    ∧ (¬(lastMsg.role = Role.model ∧ lastMsg.text = "") →
        applyChatError ⟨newId, Role.model, chatErrorText e, ts0⟩ prev
          = prev ++ [⟨newId, Role.model, chatErrorText e, ts0⟩]) := by
  refine ⟨rfl, fun lastMsg hlast => ⟨fun hrepl => ?_, fun happ => ?_⟩⟩
  · unfold applyChatError
    rw [hlast]
    exact if_pos hrepl
  · unfold applyChatError
    rw [hlast]
    exact if_neg happ

theorem chat_failure_spec_witness :
    applyChatError ⟨"9", Role.model, chatErrorText none, 3⟩
        [⟨"1", Role.model, "Hi.", 0⟩, ⟨"2", Role.user, "q", 1⟩,
         ⟨"3", Role.model, "", 2⟩]
      = ([⟨"1", Role.model, "Hi.", 0⟩, ⟨"2", Role.user, "q", 1⟩,
         ⟨"3", Role.model, "", 2⟩] : List ChatMessage).dropLast
        ++ [⟨"9", Role.model, chatErrorText none, 3⟩] :=
  ((chat_failure_spec none
    [⟨"1", Role.model, "Hi.", 0⟩, ⟨"2", Role.user, "q", 1⟩,
     ⟨"3", Role.model, "", 2⟩] "9" 3).2
    ⟨"3", Role.model, "", 2⟩ (by decide)).1 (by decide)

end SmartSpend
